import Mathlib

/-!
Verification development for the ProDy `prody/atomic/chain.py` module.

The Python module defines the residue-name table `AAMAP`, the module-level
function `getSequence`, and the class `Chain` (a view over a shared atom
table).  We embed the module shallowly: the shared atom table becomes an
explicit `AtomGroup` value passed to every accessor that reads it, object
mutation becomes explicit state passing, Python `dict`s become association
lists whose lookup returns the most recent binding, and fallible paths
(`ValueError` from `slice.indices` / `numpy.max` on empty input) return
`Except`.
-/

namespace ProdyChain

/-- Python list indexing with an explicit default.  The default is only
reached on indices that Python would reject; every theorem below that
depends on an element supplies a bound keeping the access in range. -/
def pyNth {α : Type} (l : List α) (i : Nat) (d : α) : α :=
  match l, i with
  | [], _ => d
  | x :: _, 0 => x
  | _ :: t, n + 1 => pyNth t n d

/-- Python list item assignment `l[i] = v` (identity when out of range). -/
def pySet {α : Type} (l : List α) (i : Nat) (v : α) : List α :=
  match l, i with
  | [], _ => []
  | _ :: t, 0 => v :: t
  | x :: t, n + 1 => x :: pySet t n v

/-- Python `dict.get` over an association list keyed by strings; the list is
kept newest-binding-first, so the first match is the current binding. -/
def lookupStr (d : List (String × String)) (key : String) : Option String :=
  match d with
  | [] => none
  | (k, v) :: t => if k = key then some v else lookupStr t key

/-- Python truthiness of an optional string: `None` and the empty string are
falsy, every other string is truthy. -/
def pyTruthyStr (o : Option String) : Bool :=
  match o with
  | none => false
  | some s => decide (s ≠ "")

/-- Python `''.join` over a list of strings. -/
def strJoin (l : List String) : String :=
  match l with
  | [] => ""
  | s :: t => s ++ strJoin t

/-- The 20 standard plus 5 extended three-letter codes of `AAMAP`, in the
source's literal order, each paired with its one-letter code. -/
def AAMAP_base : List (String × String) :=
  [("ALA", "A"), ("ARG", "R"), ("ASN", "N"), ("ASP", "D"), ("CYS", "C"),
   ("GLN", "Q"), ("GLU", "E"), ("GLY", "G"), ("HIS", "H"), ("ILE", "I"),
   ("LEU", "L"), ("LYS", "K"), ("MET", "M"), ("PHE", "F"), ("PRO", "P"),
   ("SER", "S"), ("THR", "T"), ("TRP", "W"), ("TYR", "Y"), ("VAL", "V"),
   ("ASX", "B"), ("GLX", "Z"), ("SEC", "U"), ("PYL", "O"), ("XLE", "J")]

/-- The modified-residue aliases added by the final `AAMAP.update` call. -/
def AAMAP_mods : List (String × String) :=
  [("PTR", "Y"), ("TPO", "T"), ("SEP", "S"), ("CSO", "C"),
   ("HSD", "H"), ("HSP", "H"), ("HSE", "H")]

/-- The residue-name table: the base entries, then for every base pair
`(aaa, a)` the reverse entry `(a, aaa)` produced by the `iteritems` loop,
then the modified-residue aliases.  No key occurs twice, so first-match
lookup agrees with Python's last-assignment-wins dict semantics. -/
def AAMAP : List (String × String) :=
  AAMAP_base ++ AAMAP_base.map (fun p => (p.2, p.1)) ++ AAMAP_mods

/-- `AAMAP.get(rn, 'X')`. -/
def aamapGet (rn : String) : String :=
  (lookupStr AAMAP rn).getD "X"

/-- Module-level `getSequence(resnames)`:
`''.join([AAMAP.get(rn, 'X') for rn in resnames])`. -/
def getSequence (resnames : List String) : String :=
  strJoin (resnames.map aamapGet)

/-- A Residue view; only its residue name is read by this module. -/
structure Residue where
  resname : String
  deriving DecidableEq, Repr

/-- The shared backing atom table: per-atom chain identifiers, residue
names and residue numbers, plus a per-atom alpha-carbon marker.
The marker is modelled from the spec: the `calpha` subset selection lives
in the external `AtomSubset` machinery, and the spec describes it as "the
alpha-carbon-bearing (i.e., standard amino-acid backbone) subset". -/
structure AtomGroup where
  chids : List String
  resnames : List String
  resnums : List Int
  calphaFlags : List Bool
  deriving DecidableEq, Repr

/-- Modelled from the spec: the external `Segment` class, reduced to what
this module touches — its name, its selection string (what
`Segment.getSelstr` returns), its chain-identifier-to-position dict
`_dict` (newest binding first) and its ordered chain list `_list`, the
chains represented by their object identities. -/
structure Segment where
  segname : String
  selstr : String
  sdict : List (String × Nat)
  slist : List Nat
  deriving DecidableEq, Repr

/-- A Chain view.  `uid` models the Python object's identity (used when the
chain is appended to a segment's list); `selstr` is the `_selstr` slot
inherited from `AtomSubset`; `seq`, `rdict` and `rlist` are the `_seq`,
`_dict` and `_list` slots; `segment` is the `_segment` back-reference. -/
structure Chain where
  indices : List Nat
  uid : Nat
  selstr : Option String
  seq : Option String
  rdict : List ((Int × Option String) × Nat)
  rlist : List Residue
  segment : Option Segment
  deriving DecidableEq, Repr

/-- Python `dict.get` for the segment's `_dict` (newest binding first). -/
def segDictGet (d : List (String × Nat)) (key : String) : Option Nat :=
  match d with
  | [] => none
  | (k, v) :: t => if k = key then some v else segDictGet t key

/-- Python `dict.get` for the chain's residue `_dict` (keys are unique, so
first-match lookup is exact dict semantics). -/
def rdictGet (d : List ((Int × Option String) × Nat)) (k : Int × Option String) :
    Option Nat :=
  match d with
  | [] => none
  | (k2, v) :: t => if k2 = k then some v else rdictGet t k

/-- The chain identifier read from the backing table:
`self._ag._getChids()[self._indices[0]]`, as a function of the table and
the index list. -/
def chidOf (ag : AtomGroup) (indices : List Nat) : String :=
  pyNth ag.chids (pyNth indices 0 0) ""

/-- `Chain.getChid`. -/
def Chain.getChid (ag : AtomGroup) (c : Chain) : String :=
  chidOf ag c.indices

/-- External mutation of one cell of the backing table's chain-identifier
column (used to observe that `getChid` is not cached). -/
def setChidCell (ag : AtomGroup) (i : Nat) (v : String) : AtomGroup :=
  { ag with chids := pySet ag.chids i v }

/-- `Chain.__init__`: initialises `_seq`, `_dict`, `_list`, and when a
segment is supplied registers the chain into it
(`segment._dict[self.getChid()] = len(segment._list)` followed by
`segment._list.append(self)`) before storing the back-reference.  Returns
the constructed chain together with the segment state after the
registration (`none` when no segment was supplied). -/
def Chain.mkChain (ag : AtomGroup) (indices : List Nat) (uid : Nat)
    (selstr : Option String) (segment : Option Segment) :
    Chain × Option Segment :=
  match segment with
  | none =>
      ({ indices := indices, uid := uid, selstr := selstr, seq := none,
         rdict := [], rlist := [], segment := none }, none)
  | some seg =>
      let chid := chidOf ag indices
      let seg2 : Segment :=
        { seg with sdict := (chid, seg.slist.length) :: seg.sdict,
                   slist := seg.slist ++ [uid] }
      ({ indices := indices, uid := uid, selstr := selstr, seq := none,
         rdict := [], rlist := [], segment := some seg2 }, some seg2)

/-- `Chain.getSegment`. -/
def Chain.getSegment (c : Chain) : Option Segment :=
  c.segment

/-- `Chain.getSegname`: `if self._segment: return self._segment.getSegname()`
(implicitly `None` otherwise).  A present `Segment` object is modelled as
truthy; `Segment.getSegname` is modelled from the spec as returning the
segment's name. -/
def Chain.getSegname (c : Chain) : Option String :=
  match c.segment with
  | none => none
  | some seg => some seg.segname

/-- `icode or None`: an absent or empty insertion code becomes `None`. -/
def pyIcodeOrNone (icode : Option String) : Option String :=
  match icode with
  | none => none
  | some s => if s = "" then none else some s

/-- `Chain.getResidue(resnum, icode=None)`: look up
`self._dict.get((resnum, icode or None))` and return `self._list[index]`
when an index was found, `None` otherwise. -/
def Chain.getResidue (c : Chain) (resnum : Int) (icode : Option String) :
    Option Residue :=
  match rdictGet c.rdict (resnum, pyIcodeOrNone icode) with
  | some i => c.rlist.get? i
  | none => none

/-- The atom-level residue numbers of the chain:
`self._getResnums()`, i.e. the backing table's resnum column restricted to
the chain's indices. -/
def chainAtomResnums (ag : AtomGroup) (c : Chain) : List Int :=
  c.indices.map (fun i => pyNth ag.resnums i 0)

/-- `numpy.max` over a nonempty list (the empty case is handled by the
caller as the `ValueError` numpy raises). -/
def listMaxD (l : List Int) (d : Int) : Int :=
  match l with
  | [] => d
  | h :: t => t.foldl max h

/-- The slice branch of `Chain.__getitem__` for a `start:stop` slice with
`0 ≤ start` and `0 ≤ stop` and implicit step 1:
`resnums = set(numpy.arange(*key.indices(resnums.max()+1)))` followed by
filtering `self._dict` on membership of the residue number.  `slice.indices(L)`
raises `ValueError` for `L < 0` and clamps `start` and `stop` to `[0, L]`;
`numpy.max` raises on an empty array. -/
def Chain.sliceResidues (ag : AtomGroup) (c : Chain) (start stop : Nat) :
    Except String (List Residue) :=
  match chainAtomResnums ag c with
  | [] => Except.error "zero-size array to reduction operation maximum"
  | h :: t =>
      let m := t.foldl max h
      if m + 1 < 0 then Except.error "length should not be negative"
      else
        let a : Int := min (start : Int) (m + 1)
        let b : Int := min (stop : Int) (m + 1)
        Except.ok ((c.rdict.filter
            (fun e => decide (a ≤ e.1.1 ∧ e.1.1 < b))).map
          (fun e => pyNth c.rlist e.2 { resname := "" }))

/-- Modelled from the spec: `self.calpha`, "the alpha-carbon-bearing
(i.e., standard amino-acid backbone) subset of the chain", given here as
the residue names of the chain's atoms whose alpha-carbon marker is set;
the subset is falsy exactly when it is empty. -/
def calphaResnames (ag : AtomGroup) (c : Chain) : List String :=
  (c.indices.filter (fun i => pyNth ag.calphaFlags i false)).map
    (fun i => pyNth ag.resnames i "")

/-- `Chain.getSequence(**kwargs)` with `allres` passed explicitly.  When
`allres` is truthy: join `AAMAP.get(res.getResname(), 'X')` over `_list`
without touching the cache.  Otherwise serve `_seq` when it is truthy, else
compute from the `calpha` subset (empty string when that subset is falsy)
and store the result in `_seq`.  Returns the resulting chain state and the
returned string. -/
def Chain.getSequence (ag : AtomGroup) (c : Chain) (allres : Bool) :
    Chain × String :=
  if allres then
    (c, strJoin (c.rlist.map (fun r => aamapGet r.resname)))
  else if pyTruthyStr c.seq then
    (c, c.seq.getD "")
  else
    let ca := calphaResnames ag c
    let seq := if ca.isEmpty then "" else ProdyChain.getSequence ca
    ({ c with seq := some seq }, seq)

/-- `Chain.getSelstr`: with no segment, qualify by `_selstr` when that is
truthy; with a segment, qualify by the segment's selection string. -/
def Chain.getSelstr (ag : AtomGroup) (c : Chain) : String :=
  match c.segment with
  | none =>
      if pyTruthyStr c.selstr then
        "chain " ++ Chain.getChid ag c ++ " and (" ++ c.selstr.getD "" ++ ")"
      else
        "chain " ++ Chain.getChid ag c
  | some seg =>
      "chain " ++ Chain.getChid ag c ++ " and (" ++ seg.selstr ++ ")"

/-! Concrete atom tables, chains and segments used as witnesses and
counterexamples below. -/

/-- A one-atom table whose single atom is not an alpha carbon. -/
def agC2a : AtomGroup :=
  { chids := ["A"], resnames := ["ALA"], resnums := [1], calphaFlags := [false] }

/-- The same table after the atom gained an alpha-carbon marker. -/
def agC2b : AtomGroup :=
  { chids := ["A"], resnames := ["ALA"], resnums := [1], calphaFlags := [true] }

/-- A fresh one-atom chain with an empty sequence cache. -/
def cC2 : Chain :=
  { indices := [0], uid := 0, selstr := none, seq := none,
    rdict := [], rlist := [], segment := none }

/-- A chain holding a single residue ALA registered under key (10, None). -/
def cC3 : Chain :=
  { indices := [0], uid := 0, selstr := none, seq := none,
    rdict := [((10, none), 0)], rlist := [{ resname := "ALA" }],
    segment := none }

/-- A table whose single atom has residue number -5. -/
def agC4 : AtomGroup :=
  { chids := ["A"], resnames := ["GLY"], resnums := [-5], calphaFlags := [false] }

/-- A non-empty chain whose only residue has residue number -5. -/
def cC4 : Chain :=
  { indices := [0], uid := 0, selstr := none, seq := none,
    rdict := [((-5, none), 0)], rlist := [{ resname := "GLY" }],
    segment := none }

/-- A two-atom table with residue numbers 10 and 12. -/
def agC4w : AtomGroup :=
  { chids := ["A", "A"], resnames := ["ALA", "GLY"], resnums := [10, 12],
    calphaFlags := [true, true] }

/-- A chain over `agC4w` with residues at numbers 10 and 12. -/
def cC4w : Chain :=
  { indices := [0, 1], uid := 0, selstr := none, seq := none,
    rdict := [((10, none), 0), ((12, none), 1)],
    rlist := [{ resname := "ALA" }, { resname := "GLY" }], segment := none }

/-- A one-atom table with chain identifier A. -/
def agC5 : AtomGroup :=
  { chids := ["A"], resnames := ["ALA"], resnums := [1], calphaFlags := [false] }

/-- A segment-less chain with no stored selection string. -/
def cC5 : Chain :=
  { indices := [0], uid := 0, selstr := none, seq := none,
    rdict := [], rlist := [], segment := none }

/-- A two-atom table with chain identifiers A and B. -/
def agC6 : AtomGroup :=
  { chids := ["A", "B"], resnames := [], resnums := [], calphaFlags := [] }

/-- A chain whose first owned atom index is 1. -/
def cC6 : Chain :=
  { indices := [1, 0], uid := 0, selstr := none, seq := none,
    rdict := [], rlist := [], segment := none }

/-- An empty atom table (the `allres` path never reads the table). -/
def agC8 : AtomGroup :=
  { chids := [], resnames := [], resnums := [], calphaFlags := [] }

/-- A chain whose single residue is named by the one-letter code A. -/
def cC8 : Chain :=
  { indices := [], uid := 0, selstr := none, seq := none,
    rdict := [], rlist := [{ resname := "A" }], segment := none }

/-- A chain with residues named ALA, FOO and SER. -/
def cC8w : Chain :=
  { indices := [], uid := 0, selstr := none, seq := none, rdict := [],
    rlist := [{ resname := "ALA" }, { resname := "FOO" }, { resname := "SER" }],
    segment := none }

/-- A two-atom table whose atoms share chain identifier A. -/
def agC10 : AtomGroup :=
  { chids := ["A", "A"], resnames := [], resnums := [], calphaFlags := [] }

/-- An initially empty segment. -/
def segC10 : Segment :=
  { segname := "S", selstr := "segname S", sdict := [], slist := [] }

/-! Helper lemmas. -/

theorem pyNth_pySet_self {α : Type} (l : List α) (i : Nat) (v d : α)
    (h : i < l.length) : pyNth (pySet l i v) i d = v := by
  induction l generalizing i with
  | nil => exact absurd h (Nat.not_lt_zero i)
  | cons x t ih =>
    cases i with
    | zero => rfl
    | succ n => exact ih n (Nat.lt_of_succ_lt_succ h)

theorem le_foldl_max (t : List Int) (a : Int) : a ≤ t.foldl max a := by
  induction t generalizing a with
  | nil => exact le_refl a
  | cons h t ih => exact le_trans (le_max_left a h) (ih (max a h))

theorem mem_le_foldl_max (t : List Int) (a x : Int) (hx : x ∈ t) :
    x ≤ t.foldl max a := by
  induction t generalizing a with
  | nil => cases hx
  | cons h t ih =>
    rcases List.mem_cons.mp hx with rfl | hmem
    · exact le_trans (le_max_right a x) (le_foldl_max t (max a x))
    · exact ih (max a h) hmem

theorem strJoin_length_singles (l : List String) (h : ∀ s ∈ l, s.length = 1) :
    (strJoin l).length = l.length := by
  induction l with
  | nil => rfl
  | cons s t ih =>
    have hs := h s (List.mem_cons_self s t)
    have ht := ih (fun x hx => h x (List.mem_cons_of_mem s hx))
    simp only [strJoin, String.length_append, hs, ht, List.length_cons]
    omega

/-! Claim theorems. -/

/-- C1, counterexample: the one-letter code A is a key of `AAMAP`, but it
maps to ALA, not to itself, so looking up a one-letter code does not return
that same one-letter code. -/
theorem c1_counterexample :
    lookupStr AAMAP "A" = some "ALA" ∧ lookupStr AAMAP "A" ≠ some "A" := by
  constructor
  · rfl
  · decide

/-- C1, amended: `AAMAP` maps every three-letter amino-acid code (base and
modified) to its one-letter code, and every one-letter code present in the
table maps back to its three-letter code — a reverse entry, not an identity
entry. -/
theorem c1_amended :
    (∀ p ∈ AAMAP_base,
        lookupStr AAMAP p.1 = some p.2 ∧ lookupStr AAMAP p.2 = some p.1) ∧
    (∀ p ∈ AAMAP_mods, lookupStr AAMAP p.1 = some p.2) := by
  decide

/-- C1, witness: ALA maps to A and A maps back to ALA. -/
theorem c1_witness :
    lookupStr AAMAP "ALA" = some "A" ∧ lookupStr AAMAP "A" = some "ALA" :=
  c1_amended.1 ("ALA", "A") (by decide)

/-- C3: `getResidue` returns the residue registered under the normalized
key when it exists, the sentinel `none` (no exception) when the key is
absent, and an empty-string insertion code is equivalent to an absent
one. -/
theorem c3_getResidue (c : Chain) (resnum : Int) (icode : Option String) :
    (∀ i r, rdictGet c.rdict (resnum, pyIcodeOrNone icode) = some i →
        c.rlist.get? i = some r → Chain.getResidue c resnum icode = some r) ∧
    (rdictGet c.rdict (resnum, pyIcodeOrNone icode) = none →
        Chain.getResidue c resnum icode = none) ∧
    Chain.getResidue c resnum (some "") = Chain.getResidue c resnum none := by
  refine ⟨?_, ?_, ?_⟩
  · intro i r h1 h2
    simp only [Chain.getResidue, h1]
    exact h2
  · intro h1
    simp [Chain.getResidue, h1]
  · rfl

/-- C3, witness: on a concrete chain, lookup with an empty insertion code
finds the residue registered under (10, None), and a missing number yields
the sentinel. -/
theorem c3_witness :
    Chain.getResidue cC3 10 (some "") = some { resname := "ALA" } ∧
    Chain.getResidue cC3 99 none = none := by
  constructor
  · exact (c3_getResidue cC3 10 (some "")).1 0 { resname := "ALA" } rfl rfl
  · exact (c3_getResidue cC3 99 none).2.1 rfl

/-- C5: `getSelstr` qualifies by the owning segment's selection string when
a segment exists (taking priority), by the truthy local `_selstr`
otherwise, and is exactly `chain <chid>` when neither exists. -/
theorem c5_getSelstr (ag : AtomGroup) (c : Chain) :
    (∀ seg, c.segment = some seg →
        Chain.getSelstr ag c =
          "chain " ++ Chain.getChid ag c ++ " and (" ++ seg.selstr ++ ")") ∧
    (c.segment = none → pyTruthyStr c.selstr = true →
        Chain.getSelstr ag c =
          "chain " ++ Chain.getChid ag c ++ " and (" ++ c.selstr.getD "" ++ ")") ∧
    (c.segment = none → pyTruthyStr c.selstr = false →
        Chain.getSelstr ag c = "chain " ++ Chain.getChid ag c) := by
  refine ⟨?_, ?_, ?_⟩
  · intro seg hseg
    simp [Chain.getSelstr, hseg]
  · intro hseg hsel
    simp [Chain.getSelstr, hseg, hsel]
  · intro hseg hsel
    simp [Chain.getSelstr, hseg, hsel]

/-- C5, witness: a chain with no segment and no stored selection string
yields exactly the bare chain selection. -/
theorem c5_witness :
    Chain.getSelstr agC5 cC5 = "chain " ++ Chain.getChid agC5 cC5 :=
  (c5_getSelstr agC5 cC5).2.2 rfl rfl

/-- C6: `getChid` reads the backing table's chain-identifier column at the
chain's first owned index, and overwriting that table cell makes the next
`getChid` return the new value — the identifier is not cached on the
chain. -/
theorem c6_getChid (ag : AtomGroup) (c : Chain) (i0 : Nat) (rest : List Nat)
    (v : String) (h1 : c.indices = i0 :: rest) (h2 : i0 < ag.chids.length) :
    Chain.getChid ag c = pyNth ag.chids i0 "" ∧
    Chain.getChid (setChidCell ag i0 v) c = v := by
  constructor
  · simp [Chain.getChid, chidOf, h1, pyNth]
  · simp only [Chain.getChid, chidOf, setChidCell, h1]
    show pyNth (pySet ag.chids i0 v) (pyNth (i0 :: rest) 0 0) "" = v
    exact pyNth_pySet_self ag.chids i0 v "" h2

/-- C6, witness: on a concrete two-atom table, the chain's identifier is
the cell at its first owned index, and updating that cell is observed. -/
theorem c6_witness :
    Chain.getChid agC6 cC6 = pyNth agC6.chids 1 "" ∧
    Chain.getChid (setChidCell agC6 1 "Q") cC6 = "Q" :=
  c6_getChid agC6 cC6 1 [0] "Q" rfl (by decide)

/-- C7: constructing a chain with a segment records the chain identifier at
the chain's position (the previous length of the segment's chain list) in
the segment's dict, appends the chain to the segment's list, and sets the
back-reference so `getSegment` returns that segment; constructing without a
segment touches no segment and leaves the back-reference empty. -/
theorem c7_init_segment (ag : AtomGroup) (indices : List Nat) (uid : Nat)
    (selstr : Option String) (seg : Segment) :
    (∃ seg2 : Segment,
        (Chain.mkChain ag indices uid selstr (some seg)).2 = some seg2 ∧
        Chain.getSegment (Chain.mkChain ag indices uid selstr (some seg)).1 =
          some seg2 ∧
        segDictGet seg2.sdict
            (Chain.getChid ag (Chain.mkChain ag indices uid selstr (some seg)).1) =
          some seg.slist.length ∧
        seg2.slist = seg.slist ++ [uid]) ∧
    (Chain.mkChain ag indices uid selstr none).2 = none ∧
    Chain.getSegment (Chain.mkChain ag indices uid selstr none).1 = none := by
  refine ⟨⟨_, rfl, rfl, ?_, rfl⟩, rfl, rfl⟩
  simp [Chain.mkChain, Chain.getSegment, Chain.getChid, segDictGet]

/-- C9: both segment accessors are total on a chain constructed without a
segment — `getSegment` and `getSegname` return `none` rather than
raising. -/
theorem c9_no_segment (ag : AtomGroup) (indices : List Nat) (uid : Nat)
    (selstr : Option String) :
    Chain.getSegment (Chain.mkChain ag indices uid selstr none).1 = none ∧
    Chain.getSegname (Chain.mkChain ag indices uid selstr none).1 = none :=
  ⟨rfl, rfl⟩

/-- C10: constructing two chains with the same chain identifier into the
same segment silently overwrites the dict entry — it ends up mapping the
identifier to the second chain's position — while the ordered chain list
keeps both chains. -/
theorem c10_duplicate_chid (ag : AtomGroup) (ind1 ind2 : List Nat)
    (uid1 uid2 : Nat) (ss1 ss2 : Option String) (seg : Segment)
    (hchid : chidOf ag ind2 = chidOf ag ind1) :
    ∃ s1 s2 : Segment,
      (Chain.mkChain ag ind1 uid1 ss1 (some seg)).2 = some s1 ∧
      (Chain.mkChain ag ind2 uid2 ss2 (some s1)).2 = some s2 ∧
      segDictGet s2.sdict (chidOf ag ind1) = some (seg.slist.length + 1) ∧
      s2.slist = seg.slist ++ [uid1, uid2] := by
  refine ⟨_, _, rfl, rfl, ?_, ?_⟩
  · simp [Chain.mkChain, segDictGet, hchid]
  · simp [Chain.mkChain]

/-- C10, witness: two one-atom chains with chain identifier A registered
into an initially empty segment. -/
theorem c10_witness :
    ∃ s1 s2 : Segment,
      (Chain.mkChain agC10 [0] 1 none (some segC10)).2 = some s1 ∧
      (Chain.mkChain agC10 [1] 2 none (some s1)).2 = some s2 ∧
      segDictGet s2.sdict (chidOf agC10 [0]) = some (segC10.slist.length + 1) ∧
      s2.slist = segC10.slist ++ [1, 2] :=
  c10_duplicate_chid agC10 [0] [1] 1 2 none none segC10 rfl

/-- C2, counterexample: on a chain with no alpha-carbon atoms the first
`getSequence()` call returns the empty string and writes it to the cache,
but a second call does not serve the cached empty string — after the
backing table gains an alpha carbon, the second call recomputes and
returns a different value. -/
theorem c2_counterexample :
    (Chain.getSequence agC2a cC2 false).2 = "" ∧
    (Chain.getSequence agC2a cC2 false).1.seq = some "" ∧
    (Chain.getSequence agC2b (Chain.getSequence agC2a cC2 false).1 false).2 = "A" ∧
    (Chain.getSequence agC2b (Chain.getSequence agC2a cC2 false).1 false).2 ≠
      (Chain.getSequence agC2a cC2 false).2 := by
  refine ⟨rfl, rfl, rfl, ?_⟩
  decide

/-- C2, amended: when the first `getSequence()` call (allres absent/false)
returns a nonempty string, every subsequent such call serves the cached
value unchanged, even against an arbitrarily altered backing table; an
empty computed sequence is written to the cache but, being falsy, is not
served — subsequent calls recompute from the current backing data. -/
theorem c2_amended (ag ag2 : AtomGroup) (c : Chain)
    (h : (Chain.getSequence ag c false).2 ≠ "") :
    Chain.getSequence ag2 (Chain.getSequence ag c false).1 false =
      ((Chain.getSequence ag c false).1, (Chain.getSequence ag c false).2) := by
  by_cases hseq : pyTruthyStr c.seq
  · simp only [Chain.getSequence, Bool.false_eq_true, if_false, hseq, if_true]
  · simp only [Chain.getSequence, Bool.false_eq_true, if_false, hseq,
      Bool.false_eq_true, if_false] at h ⊢
    simp only [pyTruthyStr, ne_eq, h, not_false_eq_true, decide_True, if_true,
      Option.getD_some]

/-- C2, witness: a first call computing a nonempty sequence is served from
the cache by the second call even after the backing table changed. -/
theorem c2_witness :
    Chain.getSequence agC2a (Chain.getSequence agC2b cC2 false).1 false =
      ((Chain.getSequence agC2b cC2 false).1,
       (Chain.getSequence agC2b cC2 false).2) :=
  c2_amended agC2b agC2a cC2 (by decide)

/-- C4, counterexample: a non-empty chain whose only residue number is -5
makes `slice.indices` receive a negative length, so slicing raises
`ValueError` instead of returning the empty intersection. -/
theorem c4_counterexample :
    Chain.sliceResidues agC4 cC4 0 3 =
      Except.error "length should not be negative" ∧
    Chain.sliceResidues agC4 cC4 0 3 ≠ Except.ok [] := by
  refine ⟨rfl, ?_⟩
  intro hcon
  have h1 : Chain.sliceResidues agC4 cC4 0 3 =
      Except.error "length should not be negative" := rfl
  rw [h1] at hcon
  exact Except.noConfusion hcon

/-- C4, amended: for every non-empty chain whose residue keys all occur
among its atoms' residue numbers and whose maximum residue number is at
least -1 (so that the slice length is nonnegative and no `ValueError` is
raised), slicing with `start:stop` returns exactly the stored residues
whose residue number lies in the half-open interval from start to stop. -/
theorem c4_amended (ag : AtomGroup) (c : Chain) (start stop : Nat)
    (hne : chainAtomResnums ag c ≠ [])
    (hmem : ∀ e ∈ c.rdict, e.1.1 ∈ chainAtomResnums ag c)
    (hmax : 0 ≤ listMaxD (chainAtomResnums ag c) 0 + 1) :
    Chain.sliceResidues ag c start stop =
      Except.ok ((c.rdict.filter
          (fun e => decide ((start : Int) ≤ e.1.1 ∧ e.1.1 < (stop : Int)))).map
        (fun e => pyNth c.rlist e.2 { resname := "" })) := by
  cases hres : chainAtomResnums ag c with
  | nil => exact absurd hres hne
  | cons hd t =>
    rw [hres] at hmem hmax
    simp only [listMaxD] at hmax
    unfold Chain.sliceResidues
    rw [hres]
    simp only
    rw [if_neg (by omega)]
    have hfil : c.rdict.filter
        (fun e => decide (min (start : Int) (t.foldl max hd + 1) ≤ e.1.1 ∧
          e.1.1 < min (stop : Int) (t.foldl max hd + 1))) =
        c.rdict.filter
        (fun e => decide ((start : Int) ≤ e.1.1 ∧ e.1.1 < (stop : Int))) := by
      apply List.filter_congr
      intro e he
      have hrn : e.1.1 ≤ t.foldl max hd := by
        rcases List.mem_cons.mp (hmem e he) with heq | hmem2
        · rw [heq]
          exact le_foldl_max t hd
        · exact mem_le_foldl_max t hd e.1.1 hmem2
      apply decide_eq_decide.mpr
      constructor
      · rintro ⟨ha, hb⟩
        refine ⟨?_, (lt_min_iff.mp hb).1⟩
        rcases min_le_iff.mp ha with hs | hL
        · exact hs
        · omega
      · rintro ⟨ha, hb⟩
        exact ⟨min_le_iff.mpr (Or.inl ha), lt_min_iff.mpr ⟨hb, by omega⟩⟩
    rw [hfil]

/-- C4, witness: slicing a concrete chain with residues 10 and 12 returns
exactly the residues with numbers in the requested interval. -/
theorem c4_witness :
    Chain.sliceResidues agC4w cC4w 10 12 =
      Except.ok ((cC4w.rdict.filter
          (fun e => decide (((10 : Nat) : Int) ≤ e.1.1 ∧
            e.1.1 < ((12 : Nat) : Int)))).map
        (fun e => pyNth cC4w.rlist e.2 { resname := "" })) :=
  c4_amended agC4w cC4w 10 12 (by decide) (by decide) (by decide)

/-- C8, counterexample: a residue named by the one-letter code A maps
through the table to its three-letter expansion, so the `allres=True`
sequence has three characters for that one residue, not one. -/
theorem c8_counterexample :
    (Chain.getSequence agC8 cC8 true).2 = "ALA" ∧
    cC8.rlist.length = 1 ∧
    (Chain.getSequence agC8 cC8 true).2.length ≠ cC8.rlist.length := by
  refine ⟨rfl, rfl, ?_⟩
  decide

/-- C8, amended: `getSequence(allres=True)` returns the concatenation, in
`residueList` order, of the table value of each residue's name with X for
unrecognized names, neither reading nor writing the sequence cache; the
result has exactly one character per residue whenever every residue's
mapped value is a single character (as for all three-letter names), but a
residue named by a one-letter code contributes its three-letter
expansion. -/
theorem c8_amended (ag : AtomGroup) (c : Chain) :
    (Chain.getSequence ag c true).1 = c ∧
    (Chain.getSequence ag c true).2 =
      strJoin (c.rlist.map (fun r => aamapGet r.resname)) ∧
    (∀ s, (Chain.getSequence ag { c with seq := s } true).2 =
        (Chain.getSequence ag c true).2) ∧
    ((∀ r ∈ c.rlist, (aamapGet r.resname).length = 1) →
        (Chain.getSequence ag c true).2.length = c.rlist.length) := by
  refine ⟨rfl, rfl, fun s => rfl, fun h => ?_⟩
  have heq : (Chain.getSequence ag c true).2 =
      strJoin (c.rlist.map (fun r => aamapGet r.resname)) := rfl
  rw [heq, strJoin_length_singles]
  · exact List.length_map c.rlist _
  · intro s hs
    rcases List.mem_map.mp hs with ⟨r, hr, hrs⟩
    rw [← hrs]
    exact h r hr

/-- C8, witness: residues ALA, FOO, SER all map to single characters, so
the `allres=True` sequence has one character per residue. -/
theorem c8_witness :
    (Chain.getSequence agC8 cC8w true).2.length = cC8w.rlist.length :=
  (c8_amended agC8 cC8w).2.2.2 (by decide)

end ProdyChain
